import Mathlib

/-!
Verification of the roblox.py client library against its specification.

The Python source is shallowly embedded: JSON values become `JVal`, Python
dicts become association lists with Python's dict semantics (`dGet`, `dSet`,
`dSetdefault`, insertion order preserved, first-occurrence replacement),
`CaseInsensitiveDict` becomes the same structure with keys lowercased on
every access, and the exception classes of `roblox/errors.py` (together with
the relevant Python builtins) become `ExcClass` with their superclass chain.
Session API methods from `roblox/http.py` are embedded as response handlers
`Resp → Except ExcClass _` and, where the number of issued requests matters,
as programs in the small request/response tree `HttpProg`.
-/

set_option maxRecDepth 4000

/-- Python `str.lower()` on one ASCII character. -/
def lowerChar (c : Char) : Char :=
  if 65 ≤ c.toNat ∧ c.toNat ≤ 90 then Char.ofNat (c.toNat + 32) else c

/-- Python `str.lower()` (the keys handled by the library are ASCII). -/
def lowerStr (s : String) : String :=
  ⟨s.data.map lowerChar⟩

/-- JSON-ish values as handled by the library (Python `None` is `null`). -/
inductive JVal where
  | null
  | bool (b : Bool)
  | int (n : Int)
  | str (s : String)
  | arr (elems : List JVal)
  | obj (fields : List (String × JVal))

/-- Python `is None` test. -/
def JVal.isNull : JVal → Bool
  | .null => true
  | _ => false

/-- Python truthiness of a JSON value. -/
def JVal.truthy : JVal → Bool
  | .null => false
  | .bool b => b
  | .int n => n ≠ 0
  | .str s => s ≠ ""
  | .arr xs => !xs.isEmpty
  | .obj fs => !fs.isEmpty

/-- Python `v == s` where `s` is a string literal: only a str can be equal. -/
def JVal.strEq (v : JVal) (s : String) : Bool :=
  match v with
  | .str t => t = s
  | _ => false

/-- A Python `dict` with JSON values: entries in insertion order. -/
abbrev PyDict := List (String × JVal)

/-- `d[k]` / `d.get(k)` as an `Option`: first entry with the exact key. -/
def dGet (d : PyDict) (k : String) : Option JVal :=
  match d with
  | [] => none
  | e :: es => if e.1 = k then some e.2 else dGet es k

/-- `d.get(k, default)`. -/
def dGetD (d : PyDict) (k : String) (dflt : JVal) : JVal :=
  (dGet d k).getD dflt

/-- `d[k] = v`: replace the value of the first entry with key `k` in place,
or append a new entry when the key is absent. -/
def dSet (d : PyDict) (k : String) (v : JVal) : PyDict :=
  match d with
  | [] => [(k, v)]
  | e :: es => if e.1 = k then (k, v) :: es else e :: dSet es k v

/-- `d.setdefault(k, v)`. -/
def dSetdefault (d : PyDict) (k : String) (v : JVal) : PyDict :=
  if (dGet d k).isSome then d else dSet d k v

/-- The keys of a dict, lowercased. -/
def keysLower (d : PyDict) : List String :=
  d.map (fun e => lowerStr e.1)

/-- A `CaseInsensitiveDict`: stored keys are lowercase, every access
lowercases the key first. -/
abbrev CID := List (String × JVal)

def cidGet (d : CID) (k : String) : Option JVal :=
  dGet d (lowerStr k)

def cidGetD (d : CID) (k : String) (dflt : JVal) : JVal :=
  (cidGet d k).getD dflt

def cidSet (d : CID) (k : String) (v : JVal) : CID :=
  dSet d (lowerStr k) v

/-- `cid.update(data)`: set each entry of `data` in insertion order. -/
def cidUpdate (d : CID) (data : PyDict) : CID :=
  data.foldl (fun acc e => cidSet acc e.1 e.2) d

/-- Python `a or b`. -/
def pyOr (a b : JVal) : JVal :=
  if a.truthy then a else b

/-- The exception classes of `roblox/errors.py`, plus the Python builtins
that the library's code can reach (`PermissionError ⊂ OSError`, `KeyError`).
-/
inductive ExcClass where
  | exception
  | osError
  | permissionErrorBuiltin
  | keyErrorBuiltin
  | robloxException
  | rateLimit
  | authError
  | captcha
  | userError
  | friendLimitExceeded
  | userIdentificationError
  | assetError
  | assetNotFound
  | purchaseError
  | priceChanged
  | gameNotFound
  | groupError
  | groupNotFound
  | userNotInGroup
  | roleError
  | roleNotFound
  | roleEditError
deriving DecidableEq, Repr

/-- Immediate superclass of each exception class, transcribed from the class
headers in `roblox/errors.py` and the Python builtin hierarchy. -/
def ExcClass.parent : ExcClass → Option ExcClass
  | .exception => none
  | .osError => some .exception
  | .permissionErrorBuiltin => some .osError
  | .keyErrorBuiltin => some .exception
  | .robloxException => some .exception
  | .rateLimit => some .robloxException
  | .authError => some .robloxException
  | .captcha => some .authError
  | .userError => some .robloxException
  | .friendLimitExceeded => some .userError
  | .userIdentificationError => some .userError
  | .assetError => some .robloxException
  | .assetNotFound => some .assetError
  | .purchaseError => some .assetError
  | .priceChanged => some .purchaseError
  | .gameNotFound => some .assetNotFound
  | .groupError => some .robloxException
  | .groupNotFound => some .groupError
  | .userNotInGroup => some .groupError
  | .roleError => some .groupError
  | .roleNotFound => some .roleError
  | .roleEditError => some .roleError

/-- The superclass chain of a class (fuel-bounded walk up `parent`;
the hierarchy has depth at most 5). -/
def ExcClass.chain : Nat → ExcClass → List ExcClass
  | 0, c => [c]
  | fuel + 1, c =>
    match c.parent with
    | none => [c]
    | some p => c :: ExcClass.chain fuel p

/-- `isinstance`-style subclass test. -/
def ExcClass.isSubclassOf (c sup : ExcClass) : Bool :=
  (ExcClass.chain 8 c).contains sup

/-- Whether a raised class belongs to the library's exception hierarchy. -/
def inRobloxHierarchy (c : ExcClass) : Bool :=
  c.isSubclassOf .robloxException

/-- An HTTP response: status code and parsed JSON body (as a dict). -/
structure Resp where
  status : Int
  body : PyDict

/-- `ok(resp)` from `roblox/http.py`: status in the 2xx range. -/
def ok (status : Int) : Bool :=
  200 ≤ status && status < 300

/-- Response handling of `Session.get_by_username`: non-OK statuses raise
`UserIdentificationError`, OK responses yield the singleton dict
with the JSON body's `Id` field (a missing `Id` is a Python `KeyError`). -/
def get_by_username (r : Resp) : Except ExcClass PyDict :=
  if !ok r.status then
    .error .userIdentificationError
  else
    match dGet r.body "Id" with
    | some v => .ok [("id", v)]
    | none => .error .keyErrorBuiltin

/-- Response handling of `Session.get_user_data`. -/
def get_user_data (r : Resp) : Except ExcClass PyDict :=
  if ok r.status then .ok r.body else .error .userIdentificationError

/-- Response handling of `Session.user_status`. -/
def user_status (r : Resp) : Except ExcClass PyDict :=
  if ok r.status then .ok r.body else .error .userIdentificationError

/-- Response handling of `Session.is_premium`. -/
def is_premium (r : Resp) : Except ExcClass PyDict :=
  if ok r.status then .ok r.body else .error .authError

/-- Response handling of `Session.product_info`. -/
def product_info (r : Resp) : Except ExcClass PyDict :=
  if ok r.status then .ok r.body else .error .assetNotFound

/-- Response handling of `Session.get_currency`. -/
def get_currency (r : Resp) : Except ExcClass PyDict :=
  if ok r.status then .ok r.body else .error .authError

/-- Response handling of `Session.get_group_details`. -/
def get_group_details (r : Resp) : Except ExcClass PyDict :=
  if ok r.status then .ok r.body else .error .groupNotFound

/-- Response handling of `Session.edit_permissions`: the non-OK branch
raises `PermissionError`, which `roblox/errors.py` does not define, so it
is Python's builtin `PermissionError` (an `OSError`). -/
def edit_permissions (r : Resp) : Except ExcClass Bool :=
  if ok r.status then .ok true else .error .permissionErrorBuiltin

/-- Response handling of `Session.purchase_product`: the body's `purchased`
field decides success (a missing field is a Python `KeyError`); on failure
`reason == "PriceChanged"` raises `PriceChanged` and every other reason,
`"InvalidArguments"` and a missing reason included, raises `PurchaseError`.
-/
def purchase_product (r : Resp) : Except ExcClass PyDict :=
  match dGet r.body "purchased" with
  | none => .error .keyErrorBuiltin
  | some purchased =>
    if purchased.truthy then
      .ok r.body
    else
      let reason := dGetD r.body "reason" .null
      if reason.strEq "InvalidArguments" then .error .purchaseError
      else if reason.strEq "PriceChanged" then .error .priceChanged
      else .error .purchaseError

/-- The key-derivation step of `BaseUser._update`: set `username` from the
`username`/`name`/`displayname`/`displayName` chain and `id` from the
`id`/`userid`/`userId` chain (all case-sensitive `dict.get` calls). -/
def userMerge (data : PyDict) : PyDict :=
  let data := dSet data "username"
    (dGetD data "username" (dGetD data "name"
      (dGetD data "displayname" (dGetD data "displayName" .null))))
  dSet data "id" (dGetD data "id" (dGetD data "userid" (dGetD data "userId" .null)))

/-- `BaseUser._update`: derive the alias keys, then merge into `_data`. -/
def userUpdate (d : CID) (data : PyDict) : CID :=
  cidUpdate d (userMerge data)

/-- The initial `_data` of a `BaseUser`. -/
def userData0 : CID :=
  [("username", .null), ("name", .null), ("id", .null), ("created", .null),
   ("description", .null), ("status", .null), ("isbanned", .null)]

/-- `BaseUser.__init__`: merge the given data into the fresh `_data` and
raise `UserIdentificationError` when both `username` and `id` are `None`. -/
def userInit (data : PyDict) : Except ExcClass CID :=
  let d := userUpdate userData0 data
  if (cidGetD d "username" .null).isNull && (cidGetD d "id" .null).isNull then
    .error .userIdentificationError
  else
    .ok d

/-- `Roblox.get_user`: raise `UserIdentificationError` when neither `id` nor
`username` is given, otherwise construct a user from the two-field dict. -/
def get_user (id : Option Int) (username : Option String) : Except ExcClass CID :=
  if username.isNone && id.isNone then
    .error .userIdentificationError
  else
    userInit [("username", (username.map JVal.str).getD .null),
              ("id", (id.map JVal.int).getD .null)]

/-- The in-place key-lowering pass shared by `Asset._update`,
`Universe._update` and `Server._update`:
`for k in list(data.keys()): data[k.lower()] = data[k]`. -/
def lowerPass (data : PyDict) : PyDict :=
  (data.map (fun e => e.1)).foldl
    (fun acc k => dSet acc (lowerStr k) (dGetD acc k .null)) data

/-- The merge step of `Asset._update`: lower the keys, then default
`price`, `id` and `name` from `priceinrobux`, `assetid` and `assetname`. -/
def assetMerge (data : PyDict) : PyDict :=
  let data := lowerPass data
  let data := dSetdefault data "price" (dGetD data "priceinrobux" .null)
  let data := dSetdefault data "id" (dGetD data "assetid" .null)
  dSetdefault data "name" (dGetD data "assetname" .null)

/-- `Asset._update`. -/
def assetUpdate (d : CID) (data : PyDict) : CID :=
  cidUpdate d (assetMerge data)

/-- `Universe._update`: lower the keys, then merge. -/
def universeUpdate (d : CID) (data : PyDict) : CID :=
  cidUpdate d (lowerPass data)

/-- `Group._update`: a plain merge. -/
def groupUpdate (d : CID) (data : PyDict) : CID :=
  cidUpdate d data

/-- The `p_info`/`g_info` decorator of `roblox/asset.py`, `roblox/group.py`
and `roblox/game.py`: when `nocache` is set or the cached field is `None`,
fetch (counted in the first component) and merge the response with the
class's `_update`, then return the field from `_data`. -/
def p_info (nocache : Bool) (name : String) (upd : CID → PyDict → CID)
    (d : CID) (resp : PyDict) : Nat × CID × JVal :=
  if nocache || (cidGetD d name .null).isNull then
    let d1 := upd d resp
    (1, d1, cidGetD d1 name .null)
  else
    (0, d, cidGetD d name .null)

/-- `User.username`: fetch profile data when the cached field is `None`;
the result falls back to `_data["name"]` through Python `or`. -/
def user_username (d : CID) (resp : PyDict) : Nat × CID × JVal :=
  if (cidGetD d "username" .null).isNull then
    let d1 := userUpdate d resp
    (1, d1, pyOr (cidGetD d1 "username" .null) (cidGetD d1 "name" .null))
  else
    (0, d, pyOr (cidGetD d "username" .null) (cidGetD d "name" .null))

/-- `User.description`: fetch profile data when the cached field is `None`. -/
def user_description (d : CID) (resp : PyDict) : Nat × CID × JVal :=
  if (cidGetD d "description" .null).isNull then
    let d1 := userUpdate d resp
    (1, d1, cidGetD d1 "description" .null)
  else
    (0, d, cidGetD d "description" .null)

/-- `Asset.name` (`p_info("name")`). -/
def asset_name (d : CID) (resp : PyDict) : Nat × CID × JVal :=
  p_info false "name" assetUpdate d resp

/-- `Asset.description` (`p_info("description")`). -/
def asset_description (d : CID) (resp : PyDict) : Nat × CID × JVal :=
  p_info false "description" assetUpdate d resp

/-- `Asset.price` (`p_info("price", nocache=True)`). -/
def asset_price (d : CID) (resp : PyDict) : Nat × CID × JVal :=
  p_info true "price" assetUpdate d resp

/-- `Asset.sales` (`p_info("sales", nocache=True)`). -/
def asset_sales (d : CID) (resp : PyDict) : Nat × CID × JVal :=
  p_info true "sales" assetUpdate d resp

/-- `Group.name` (`g_info("name")` in `roblox/group.py`). -/
def group_name (d : CID) (resp : PyDict) : Nat × CID × JVal :=
  p_info false "name" groupUpdate d resp

/-- `Universe.name` (`g_info("name")` in `roblox/game.py`). -/
def universe_name (d : CID) (resp : PyDict) : Nat × CID × JVal :=
  p_info false "name" universeUpdate d resp

/-- The rank used by `GroupMember._comp`: 0 when `_data["role"]` is `None`,
otherwise `role.get("rank", 0)`. -/
def gmRank (d : CID) : JVal :=
  match cidGetD d "role" .null with
  | .null => .int 0
  | .obj fields => dGetD fields "rank" (.int 0)
  | _ => .int 0

/-- `GroupMember._comp` on two members: 1, 0 or -1 by rank comparison;
`none` when a rank is not an integer (a Python `TypeError` on `>`). -/
def gm_comp (x y : CID) : Option Int :=
  match gmRank x, gmRank y with
  | .int a, .int b => some (if a > b then 1 else if a = b then 0 else -1)
  | _, _ => none

/-- `GroupMember.__gt__`: `c == 1`. -/
def gm_gt (x y : CID) : Option Bool :=
  (gm_comp x y).map (fun c => c = 1)

/-- `GroupMember.__ge__`: `c > 0`. -/
def gm_ge (x y : CID) : Option Bool :=
  (gm_comp x y).map (fun c => c > 0)

/-- `GroupMember.__lt__`: `c == -1`. -/
def gm_lt (x y : CID) : Option Bool :=
  (gm_comp x y).map (fun c => c = -1)

/-- `GroupMember.__le__`: `c < 0`. -/
def gm_le (x y : CID) : Option Bool :=
  (gm_comp x y).map (fun c => c < 0)

/-- `Role._comp` on two roles: compares `_data["rank"]` values;
`none` when a rank is not an integer (a Python `TypeError` on `>`). -/
def role_comp (x y : CID) : Option Int :=
  match cidGetD x "rank" .null, cidGetD y "rank" .null with
  | .int a, .int b => some (if a > b then 1 else if a < b then -1 else 0)
  | _, _ => none

/-- `Role.__gt__`: `c == 1`. -/
def role_gt (x y : CID) : Option Bool :=
  (role_comp x y).map (fun c => c = 1)

/-- `Role.__ge__`: `c >= 0`. -/
def role_ge (x y : CID) : Option Bool :=
  (role_comp x y).map (fun c => c ≥ 0)

/-- `Role.__lt__`: `c == -1`. -/
def role_lt (x y : CID) : Option Bool :=
  (role_comp x y).map (fun c => c = -1)

/-- `Role.__le__`: `c <= 0`. -/
def role_le (x y : CID) : Option Bool :=
  (role_comp x y).map (fun c => c ≤ 0)

/-- The loop of `AsyncIterator.flatten`: append each yielded item, increment
the counter `i`, and break when `i == limit` (Python `int == None` and
`1 == 0` are false, so `limit=None` and `limit=0` never break). -/
def flattenGo {α : Type} (items : List α) (i : Nat) (limit : Option Nat) :
    List α :=
  match items with
  | [] => []
  | x :: xs =>
    if limit = some (i + 1) then [x]
    else x :: flattenGo xs (i + 1) limit

/-- `AsyncIterator.flatten(limit)` over a finite stream of items. -/
def flatten {α : Type} (items : List α) (limit : Option Nat) : List α :=
  flattenGo items 0 limit

/-- A Session method as a request/response tree: return, raise, or issue a
request (with its URL) and continue on the response. -/
inductive HttpProg (α : Type) where
  | ret (a : α)
  | fail (e : ExcClass)
  | req (url : String) (k : Resp → HttpProg α)

/-- Lift a response handler's result into `HttpProg`. -/
def HttpProg.ofExcept {α : Type} : Except ExcClass α → HttpProg α
  | .ok a => .ret a
  | .error e => .fail e

/-- Run a program against an oracle of responses (the `n`-th request gets
response `oracle n`); result: the URLs of the issued requests, in order,
and the outcome. Raising stops the run: nothing is issued after a `fail`. -/
def runP {α : Type} : HttpProg α → (Nat → Resp) → Nat →
    List String × Except ExcClass α
  | .ret a, _, _ => ([], .ok a)
  | .fail e, _, _ => ([], .error e)
  | .req url k, oracle, n =>
    let rest := runP (k (oracle n)) oracle (n + 1)
    (url :: rest.1, rest.2)

/-- `Session.get_by_username` as a one-request program. -/
def get_by_username_prog (username : String) : HttpProg PyDict :=
  .req ("https://api.roblox.com/users/get-by-username?username=" ++ username)
    (fun r => .ofExcept (get_by_username r))

/-- `Session.get_user_data` as a one-request program. -/
def get_user_data_prog (user_id : Int) : HttpProg PyDict :=
  .req ("https://users.roblox.com/v1/users/" ++ toString user_id)
    (fun r => .ofExcept (get_user_data r))

/-- `Session.user_status` as a one-request program. -/
def user_status_prog (user_id : Int) : HttpProg PyDict :=
  .req ("https://users.roblox.com/v1/users/" ++ toString user_id ++ "/status")
    (fun r => .ofExcept (user_status r))

/-- `Session.product_info` as a one-request program. -/
def product_info_prog (asset_id : Int) : HttpProg PyDict :=
  .req ("https://api.roblox.com/marketplace/productinfo?assetId=" ++
      toString asset_id)
    (fun r => .ofExcept (product_info r))

/-- `Session.get_currency` as a one-request program. -/
def get_currency_prog (user_id : Int) : HttpProg PyDict :=
  .req ("https://economy.roblox.com/v1/users/" ++ toString user_id ++
      "/currency")
    (fun r => .ofExcept (get_currency r))

/-- `Session.get_group_details` as a one-request program. -/
def get_group_details_prog (group_id : Int) : HttpProg PyDict :=
  .req ("https://groups.roblox.com/v1/groups/" ++ toString group_id)
    (fun r => .ofExcept (get_group_details r))

/-- `Session.purchase_product` as a one-request program. -/
def purchase_product_prog (product_id : Int) : HttpProg PyDict :=
  .req ("https://economy.roblox.com/v1/purchases/products/" ++
      toString product_id)
    (fun r => .ofExcept (purchase_product r))

/-- `Session.edit_permissions` as a one-request program. -/
def edit_permissions_prog (group_id role_id : Int) : HttpProg Bool :=
  .req ("https://groups.roblox.com/v1/groups/" ++ toString group_id ++
      "/roles/" ++ toString role_id ++ "/permissions")
    (fun r => .ofExcept (edit_permissions r))

/-- The items of one page in `Session.gen_pages`:
`data.get(data_key, [])` with `data_key = "data"`. -/
def pageItems (body : PyDict) : List JVal :=
  match dGetD body "data" (.arr []) with
  | .arr xs => xs
  | _ => []

/-- `Session.gen_pages` as a program, bounded by `fuel` pages: request a
page, yield its items, and stop when the body's `nextPageCursor` is `None`
(error bodies carry no cursor, so a failing page is the last request). -/
def gen_pages_prog (url : String) : Nat → List JVal → HttpProg (List JVal)
  | 0, acc => .ret acc
  | fuel + 1, acc =>
    .req url (fun r =>
      let acc := acc ++ pageItems r.body
      if (dGetD r.body "nextPageCursor" .null).isNull then .ret acc
      else gen_pages_prog url fuel acc)

/-- Python `==` on the primitive JSON values that user `_data` fields hold
(`None`, bools, ints, strs; bools compare equal to their int values).
Container equality is not needed by the embedded code. -/
def pyEqPrim : JVal → JVal → Bool
  | .null, .null => true
  | .bool a, .bool b => a = b
  | .bool a, .int b => (if a then (1 : Int) else 0) = b
  | .int a, .bool b => a = (if b then (1 : Int) else 0)
  | .int a, .int b => a = b
  | .str a, .str b => a = b
  | _, _ => false

/-- Python `.lower()` on a `_data` value (used on usernames, which are strs).
-/
def JVal.lowerVal : JVal → JVal
  | .str s => .str (lowerStr s)
  | v => v

/-- `BaseUser.__eq__` between two users (both operands are `BaseUser`s):
equal ids that are not `None`, else case-insensitive username equality when
both usernames are not `None`, else `False`. -/
def user_eq (x y : CID) : Bool :=
  let xid := cidGetD x "id" .null
  let yid := cidGetD y "id" .null
  if pyEqPrim xid yid && !xid.isNull then
    true
  else
    let xu := cidGetD x "username" .null
    let yu := cidGetD y "username" .null
    if !xu.isNull && !yu.isNull then
      pyEqPrim xu.lowerVal yu.lowerVal
    else
      false

/-- A `_data` id field as the code stores it: an int or `None`. -/
def isIntOrNull : JVal → Bool
  | .null => true
  | .int _ => true
  | _ => false

/-- A `_data` username field as the code stores it: a str or `None`. -/
def isStrOrNull : JVal → Bool
  | .null => true
  | .str _ => true
  | _ => false

/-- The `username` alias value derived by `BaseUser._update`:
`data.get("username", data.get("name", data.get("displayname",
data.get("displayName"))))`. -/
def usernameVal (data : PyDict) : JVal :=
  dGetD data "username" (dGetD data "name"
    (dGetD data "displayname" (dGetD data "displayName" .null)))

/-- The `id` alias value derived by `BaseUser._update`:
`data.get("id", data.get("userid", data.get("userId")))`. -/
def idVal (data : PyDict) : JVal :=
  dGetD data "id" (dGetD data "userid" (dGetD data "userId" .null))

/-- The last value among a dict's entries whose lowercased key is `lk`
(what a case-insensitive merge of those entries leaves in the slot). -/
def findLast (es : PyDict) (lk : String) : Option JVal :=
  match es with
  | [] => none
  | e :: rest =>
    match findLast rest lk with
    | some v => some v
    | none => if lowerStr e.1 = lk then some e.2 else none

theorem toNat_ofNat_valid (n : Nat) (h : n.isValidChar) :
    (Char.ofNat n).toNat = n := by
  rw [Char.ofNat, dif_pos h]
  simp [Char.ofNatAux, Char.toNat, UInt32.toNat]

theorem lowerChar_idem (c : Char) : lowerChar (lowerChar c) = lowerChar c := by
  unfold lowerChar
  by_cases h : 65 ≤ c.toNat ∧ c.toNat ≤ 90
  · rw [if_pos h, if_neg]
    rw [toNat_ofNat_valid (c.toNat + 32) (Or.inl (by omega))]
    omega
  · rw [if_neg h, if_neg h]

theorem lowerStr_idem (s : String) : lowerStr (lowerStr s) = lowerStr s := by
  unfold lowerStr
  refine congrArg String.mk ?_
  rw [List.map_map]
  exact List.map_congr_left (fun c _ => lowerChar_idem c)

theorem dGet_dSet_self (d : PyDict) (k : String) (v : JVal) :
    dGet (dSet d k v) k = some v := by
  induction d with
  | nil => simp [dSet, dGet]
  | cons e es ih =>
    by_cases h : e.1 = k
    · simp [dSet, h, dGet]
    · simp [dSet, h, dGet, ih]

theorem dGet_dSet_ne (d : PyDict) (k k2 : String) (v : JVal) (h : k2 ≠ k) :
    dGet (dSet d k v) k2 = dGet d k2 := by
  induction d with
  | nil => simp [dSet, dGet, Ne.symm h]
  | cons e es ih =>
    by_cases he : e.1 = k
    · subst he
      simp [dSet, dGet, Ne.symm h, fun hh : e.1 = k2 => h hh.symm]
    · simp [dSet, he, dGet, ih]

theorem cidGet_cidSet_self (d : CID) (k : String) (v : JVal) :
    cidGet (cidSet d k v) k = some v := by
  simp [cidGet, cidSet, dGet_dSet_self]

theorem cidGet_cidSet (d : CID) (k k2 : String) (v : JVal) :
    cidGet (cidSet d k v) k2 =
      if lowerStr k2 = lowerStr k then some v else cidGet d k2 := by
  by_cases h : lowerStr k2 = lowerStr k
  · rw [if_pos h]
    unfold cidGet cidSet
    rw [h, dGet_dSet_self]
  · rw [if_neg h]
    exact dGet_dSet_ne d (lowerStr k) (lowerStr k2) v h

theorem cidGet_cidUpdate (d : CID) (es : PyDict) (k : String) :
    cidGet (cidUpdate d es) k =
      match findLast es (lowerStr k) with
      | some v => some v
      | none => cidGet d k := by
  induction es generalizing d with
  | nil => simp [cidUpdate, findLast]
  | cons e rest ih =>
    have step : cidUpdate d (e :: rest) = cidUpdate (cidSet d e.1 e.2) rest :=
      rfl
    rw [step, ih]
    cases hf : findLast rest (lowerStr k) with
    | some v => simp [findLast, hf]
    | none =>
      simp only [findLast, hf]
      rw [cidGet_cidSet]
      by_cases h : lowerStr e.1 = lowerStr k
      · rw [if_pos h.symm, if_pos h]
      · rw [if_neg (fun hh => h hh.symm), if_neg h]

theorem findLast_eq_none_iff (es : PyDict) (lk : String) :
    findLast es lk = none ↔ lk ∉ keysLower es := by
  induction es with
  | nil => simp [findLast, keysLower]
  | cons e rest ih =>
    rw [findLast]
    cases hf : findLast rest lk with
    | some v =>
      have hmem : lk ∈ keysLower rest := by
        by_contra hmem
        rw [ih.mpr hmem] at hf
        exact Option.noConfusion hf
      simp only [keysLower, List.map_cons, List.mem_cons]
      constructor
      · intro h
        exact Option.noConfusion h
      · intro h
        exact absurd (Or.inr (by simpa [keysLower] using hmem)) h
    | none =>
      have hrest : lk ∉ keysLower rest := ih.mp hf
      by_cases h : lowerStr e.1 = lk
      · simp only [if_pos h, keysLower, List.map_cons, List.mem_cons]
        constructor
        · intro hh
          exact Option.noConfusion hh
        · intro hh
          exact absurd (Or.inl h.symm) hh
      · simp only [if_neg h, keysLower, List.map_cons, List.mem_cons]
        constructor
        · intro _ hh
          rcases hh with h1 | h2
          · exact h h1.symm
          · exact hrest (by simpa [keysLower] using h2)
        · intro _
          trivial

theorem findLast_mem (es : PyDict) (lk : String) (w : JVal)
    (h : findLast es lk = some w) :
    ∃ e, e ∈ es ∧ lowerStr e.1 = lk ∧ e.2 = w := by
  induction es with
  | nil => simp [findLast] at h
  | cons e rest ih =>
    rw [findLast] at h
    cases hf : findLast rest lk with
    | some v =>
      rw [hf] at h
      have hv : v = w := Option.some.inj h
      obtain ⟨e2, he2, hl, hv2⟩ := ih (by rw [hf, hv])
      exact ⟨e2, List.mem_cons_of_mem _ he2, hl, hv2⟩
    | none =>
      rw [hf] at h
      by_cases hl : lowerStr e.1 = lk
      · rw [if_pos hl] at h
        exact ⟨e, List.mem_cons_self _ _, hl, Option.some.inj h⟩
      · rw [if_neg hl] at h
        exact Option.noConfusion h

theorem findLast_dSet_ne (d : PyDict) (k lk : String) (v : JVal)
    (h : lk ≠ lowerStr k) :
    findLast (dSet d k v) lk = findLast d lk := by
  induction d with
  | nil => simp [dSet, findLast, Ne.symm h]
  | cons e es ih =>
    by_cases he : e.1 = k
    · simp only [dSet, if_pos he, findLast, he, if_neg (Ne.symm h)]
    · simp only [dSet, if_neg he, findLast, ih]

theorem findLast_dSet_self (d : PyDict) (k : String) (v : JVal)
    (h : (keysLower d).count (lowerStr k) ≤ 1) :
    findLast (dSet d k v) (lowerStr k) = some v := by
  induction d with
  | nil => simp [dSet, findLast]
  | cons e es ih =>
    by_cases he : e.1 = k
    · have hcnt : (keysLower es).count (lowerStr k) = 0 := by
        have h2 : (keysLower (e :: es)).count (lowerStr k) =
            (keysLower es).count (lowerStr k) + 1 := by
          simp [keysLower, List.count_cons, he]
        have h3 := h
        rw [h2] at h3
        omega
      have hmem : lowerStr k ∉ keysLower es :=
        List.count_eq_zero.mp hcnt
      have hnone : findLast es (lowerStr k) = none :=
        (findLast_eq_none_iff es (lowerStr k)).mpr hmem
      simp [dSet, if_pos he, findLast, hnone]
    · have hle : (keysLower es).count (lowerStr k) ≤ 1 := by
        have h2 : (keysLower (e :: es)).count (lowerStr k) =
            (keysLower es).count (lowerStr k) +
              (if lowerStr e.1 = lowerStr k then 1 else 0) := by
          simp [keysLower, List.count_cons]
        have h3 := h
        rw [h2] at h3
        omega
      simp only [dSet, if_neg he, findLast, ih hle]

theorem findLast_of_unique (d : PyDict) (k : String) (v : JVal)
    (hnd : (keysLower d).Nodup) (hm : (k, v) ∈ d) :
    findLast d (lowerStr k) = some v := by
  induction d with
  | nil => simp at hm
  | cons e es ih =>
    rcases List.mem_cons.mp hm with heq | hm2
    · subst heq
      have hhead : lowerStr k ∉ keysLower es :=
        (List.nodup_cons.mp hnd).1
      have hnone : findLast es (lowerStr k) = none :=
        (findLast_eq_none_iff es (lowerStr k)).mpr hhead
      simp [findLast, hnone]
    · have hnd2 : (keysLower es).Nodup := (List.nodup_cons.mp hnd).2
      simp only [findLast, ih hnd2 hm2]

theorem mem_dSet (d : PyDict) (k : String) (v : JVal) (e : String × JVal)
    (h : e ∈ dSet d k v) : e ∈ d ∨ e = (k, v) := by
  induction d with
  | nil => simpa [dSet] using h
  | cons e2 es ih =>
    by_cases he : e2.1 = k
    · rw [dSet, if_pos he] at h
      rcases List.mem_cons.mp h with h1 | h2
      · exact Or.inr h1
      · exact Or.inl (List.mem_cons_of_mem _ h2)
    · rw [dSet, if_neg he] at h
      rcases List.mem_cons.mp h with h1 | h2
      · exact Or.inl (h1 ▸ List.mem_cons_self _ _)
      · rcases ih h2 with h3 | h4
        · exact Or.inl (List.mem_cons_of_mem _ h3)
        · exact Or.inr h4

theorem mem_of_dGet (d : PyDict) (k : String) (v : JVal)
    (h : dGet d k = some v) : (k, v) ∈ d := by
  induction d with
  | nil => simp [dGet] at h
  | cons e es ih =>
    rw [dGet] at h
    by_cases he : e.1 = k
    · rw [if_pos he] at h
      have he2 : e = (k, v) := Prod.ext he (Option.some.inj h)
      exact he2 ▸ List.mem_cons_self _ _
    · rw [if_neg he] at h
      exact List.mem_cons_of_mem _ (ih h)

theorem keys_nodup_of_keysLower (d : PyDict) (h : (keysLower d).Nodup) :
    (d.map (fun e => e.1)).Nodup := by
  have heq : keysLower d = (d.map (fun e => e.1)).map lowerStr := by
    rw [List.map_map]
    rfl
  rw [heq] at h
  exact h.of_map _

theorem dGet_of_mem_nodup (d : PyDict) (k : String) (v : JVal)
    (hnd : (d.map (fun e => e.1)).Nodup) (hm : (k, v) ∈ d) :
    dGet d k = some v := by
  induction d with
  | nil => simp at hm
  | cons e es ih =>
    rcases List.mem_cons.mp hm with heq | hm2
    · rw [dGet, ← heq, if_pos rfl]
    · have hnd1 : e.1 ∉ es.map (fun e => e.1) := (List.nodup_cons.mp hnd).1
      have hke : e.1 ≠ k :=
        fun hk => hnd1 (hk ▸ List.mem_map.mpr ⟨(k, v), hm2, rfl⟩)
      rw [dGet, if_neg hke]
      exact ih (List.nodup_cons.mp hnd).2 hm2

theorem keysLower_dSet_sub (d : PyDict) (k k2 : String) (v : JVal)
    (h : k2 ∈ keysLower (dSet d k v)) : k2 ∈ keysLower d ∨ k2 = lowerStr k := by
  induction d with
  | nil =>
    simp [dSet, keysLower] at h
    exact Or.inr h
  | cons e es ih =>
    by_cases he : e.1 = k
    · rw [dSet, if_pos he] at h
      rcases List.mem_cons.mp h with h1 | h2
      · exact Or.inr h1
      · exact Or.inl (by simpa [keysLower] using Or.inr (by simpa [keysLower] using h2))
    · rw [dSet, if_neg he] at h
      rcases List.mem_cons.mp h with h1 | h2
      · exact Or.inl (by simp [keysLower, h1])
      · rcases ih (by simpa [keysLower] using h2) with h3 | h4
        · exact Or.inl (by simpa [keysLower] using Or.inr (by simpa [keysLower] using h3))
        · exact Or.inr h4

theorem count_keysLower_dSet_ne (d : PyDict) (k lk : String) (v : JVal)
    (h : lk ≠ lowerStr k) :
    (keysLower (dSet d k v)).count lk = (keysLower d).count lk := by
  induction d with
  | nil => simp [dSet, keysLower, List.count_cons, Ne.symm h]
  | cons e es ih =>
    by_cases he : e.1 = k
    · simp [dSet, if_pos he, keysLower, List.count_cons, he]
    · simp only [dSet, if_neg he, keysLower, List.map_cons, List.count_cons]
      simp only [keysLower] at ih
      rw [ih]

theorem findLast_dSetdefault_ne (d : PyDict) (k lk : String) (v : JVal)
    (h : lk ≠ lowerStr k) :
    findLast (dSetdefault d k v) lk = findLast d lk := by
  unfold dSetdefault
  by_cases hp : (dGet d k).isSome
  · rw [if_pos hp]
  · rw [if_neg hp]
    exact findLast_dSet_ne d k lk v h

theorem dGet_dSetdefault_isSome (d : PyDict) (k : String) (v : JVal) :
    (dGet (dSetdefault d k v) k).isSome := by
  unfold dSetdefault
  by_cases hp : (dGet d k).isSome
  · rw [if_pos hp]
    exact hp
  · rw [if_neg hp, dGet_dSet_self]
    rfl

theorem dGet_dSetdefault_ne (d : PyDict) (k k2 : String) (v : JVal)
    (h : k2 ≠ k) : dGet (dSetdefault d k v) k2 = dGet d k2 := by
  unfold dSetdefault
  by_cases hp : (dGet d k).isSome
  · rw [if_pos hp]
  · rw [if_neg hp]
    exact dGet_dSet_ne d k k2 v h

theorem userMerge_eq (data : PyDict) :
    userMerge data =
      dSet (dSet data "username" (usernameVal data)) "id" (idVal data) := by
  unfold userMerge usernameVal idVal dGetD
  dsimp only
  rw [dGet_dSet_ne data "username" "id" _ (by decide),
    dGet_dSet_ne data "username" "userid" _ (by decide),
    dGet_dSet_ne data "username" "userId" _ (by decide)]

theorem lowerPass_inv (rec : PyDict) (hnd : (keysLower rec).Nodup) :
    (∀ e, e ∈ lowerPass rec →
        ∃ p, p ∈ rec ∧ lowerStr e.1 = lowerStr p.1 ∧ e.2 = p.2) ∧
    (∀ p, p ∈ rec → dGet (lowerPass rec) p.1 = some p.2) := by
  have huniq : ∀ p q, p ∈ rec → q ∈ rec → lowerStr p.1 = lowerStr q.1 →
      p = q :=
    fun p q hp hq hl => List.inj_on_of_nodup_map hnd hp hq hl
  suffices haux : ∀ (ks : List String) (acc : PyDict),
      (∀ k, k ∈ ks → k ∈ rec.map (fun e => e.1)) →
      (∀ e, e ∈ acc → ∃ p, p ∈ rec ∧ lowerStr e.1 = lowerStr p.1 ∧ e.2 = p.2) →
      (∀ p, p ∈ rec → dGet acc p.1 = some p.2) →
      (∀ e, e ∈ ks.foldl
          (fun acc k => dSet acc (lowerStr k) (dGetD acc k .null)) acc →
          ∃ p, p ∈ rec ∧ lowerStr e.1 = lowerStr p.1 ∧ e.2 = p.2) ∧
      (∀ p, p ∈ rec → dGet (ks.foldl
          (fun acc k => dSet acc (lowerStr k) (dGetD acc k .null)) acc) p.1 =
          some p.2) by
    exact haux (rec.map (fun e => e.1)) rec (fun k hk => hk)
      (fun e he => ⟨e, he, rfl, rfl⟩)
      (fun p hp => dGet_of_mem_nodup rec p.1 p.2
        (keys_nodup_of_keysLower rec hnd) (by exact hp))
  intro ks
  induction ks with
  | nil =>
    intro acc _ h1 h2
    exact ⟨h1, h2⟩
  | cons k ks ih =>
    intro acc hks h1 h2
    obtain ⟨p0, hp0, hk0⟩ := List.mem_map.mp (hks k (List.mem_cons_self _ _))
    have hval : dGet acc k = some p0.2 := hk0 ▸ h2 p0 hp0
    show (∀ e, e ∈ ks.foldl _ (dSet acc (lowerStr k) (dGetD acc k .null)) →
        _) ∧ _
    apply ih
    · exact fun k2 hk2 => hks k2 (List.mem_cons_of_mem _ hk2)
    · intro e he
      rcases mem_dSet _ _ _ _ he with he1 | he2
      · exact h1 e he1
      · refine ⟨p0, hp0, ?_, ?_⟩
        · rw [he2]
          show lowerStr (lowerStr k) = lowerStr p0.1
          rw [lowerStr_idem, hk0]
        · rw [he2]
          show dGetD acc k .null = p0.2
          rw [dGetD, hval]
          rfl
    · intro q hq
      by_cases hq1 : q.1 = lowerStr k
      · have hlq : lowerStr q.1 = lowerStr k := by rw [hq1, lowerStr_idem]
        have hpq : p0 = q := huniq p0 q hp0 hq (by rw [hk0, hlq])
        rw [hq1, dGet_dSet_self, dGetD, hval]
        rw [← hpq]
        rfl
      · rw [dGet_dSet_ne _ _ _ _ hq1]
        exact h2 q hq

theorem keysLower_lowerPass_sub (rec : PyDict) :
    ∀ k2, k2 ∈ keysLower (lowerPass rec) → k2 ∈ keysLower rec := by
  suffices haux : ∀ (ks : List String) (acc : PyDict),
      (∀ k, k ∈ ks → lowerStr k ∈ keysLower rec) →
      (∀ k2, k2 ∈ keysLower acc → k2 ∈ keysLower rec) →
      ∀ k2, k2 ∈ keysLower (ks.foldl
        (fun acc k => dSet acc (lowerStr k) (dGetD acc k .null)) acc) →
        k2 ∈ keysLower rec by
    refine haux (rec.map (fun e => e.1)) rec ?_ (fun k2 h => h)
    intro k hk
    obtain ⟨p, hp, hkp⟩ := List.mem_map.mp hk
    exact hkp ▸ List.mem_map.mpr ⟨p, hp, rfl⟩
  intro ks
  induction ks with
  | nil =>
    intro acc _ hacc
    exact hacc
  | cons k ks ih =>
    intro acc hks hacc k2 hk2
    refine ih _ (fun k3 hk3 => hks k3 (List.mem_cons_of_mem _ hk3)) ?_ k2 hk2
    intro k3 hk3
    rcases keysLower_dSet_sub _ _ _ _ hk3 with hk4 | hk5
    · exact hacc k3 hk4
    · rw [hk5, lowerStr_idem]
      exact hks k (List.mem_cons_self _ _)

theorem findLast_lowerPass_of_unique (rec : PyDict) (k : String) (v : JVal)
    (hnd : (keysLower rec).Nodup) (hm : (k, v) ∈ rec) :
    findLast (lowerPass rec) (lowerStr k) = some v := by
  obtain ⟨hpart1, hpart2⟩ := lowerPass_inv rec hnd
  have hget : dGet (lowerPass rec) k = some v := hpart2 (k, v) hm
  have hmemLP : (k, v) ∈ lowerPass rec := mem_of_dGet _ _ _ hget
  have hkeys : lowerStr k ∈ keysLower (lowerPass rec) :=
    List.mem_map.mpr ⟨(k, v), hmemLP, rfl⟩
  cases hf : findLast (lowerPass rec) (lowerStr k) with
  | none => exact absurd ((findLast_eq_none_iff _ _).mp hf) (by simp [hkeys])
  | some w =>
    obtain ⟨e, heLP, hlow, hval⟩ := findLast_mem _ _ _ hf
    obtain ⟨p, hp, hlowp, hvp⟩ := hpart1 e heLP
    have hpk : p = (k, v) :=
      List.inj_on_of_nodup_map hnd hp hm (by rw [← hlowp, hlow])
    rw [← hval, hvp, hpk]

theorem user_frame (d : CID) (rec : PyDict) (k : String)
    (hmem : lowerStr k ∉ keysLower rec)
    (hu : lowerStr k ≠ "username") (hi : lowerStr k ≠ "id") :
    cidGet (userUpdate d rec) k = cidGet d k := by
  have hnone : findLast (userMerge rec) (lowerStr k) = none := by
    rw [findLast_eq_none_iff, userMerge_eq]
    intro hin
    rcases keysLower_dSet_sub _ _ _ _ hin with h1 | h2
    · rcases keysLower_dSet_sub _ _ _ _ h1 with h3 | h4
      · exact hmem h3
      · exact hu (by rw [h4]; decide)
    · exact hi (by rw [h2]; decide)
  rw [userUpdate, cidGet_cidUpdate, hnone]

theorem user_writes (d : CID) (rec : PyDict) (k : String) (v : JVal)
    (hnd : (keysLower rec).Nodup) (hm : (k, v) ∈ rec)
    (hu : lowerStr k ≠ "username") (hi : lowerStr k ≠ "id") :
    cidGet (userUpdate d rec) k = some v := by
  have hlast : findLast (userMerge rec) (lowerStr k) = some v := by
    rw [userMerge_eq,
      findLast_dSet_ne _ _ _ _ (by rw [show lowerStr "id" = "id" by decide]; exact hi),
      findLast_dSet_ne _ _ _ _
        (by rw [show lowerStr "username" = "username" by decide]; exact hu)]
    exact findLast_of_unique rec k v hnd hm
  rw [userUpdate, cidGet_cidUpdate, hlast]

theorem user_alias_username (d : CID) (rec : PyDict)
    (hnd : (keysLower rec).Nodup) :
    cidGet (userUpdate d rec) "username" = some (usernameVal rec) := by
  have hcnt : (keysLower rec).count (lowerStr "username") ≤ 1 :=
    List.nodup_iff_count_le_one.mp hnd _
  have hlast : findLast (userMerge rec) (lowerStr "username") =
      some (usernameVal rec) := by
    rw [userMerge_eq,
      findLast_dSet_ne _ _ _ _ (by decide)]
    exact findLast_dSet_self rec "username" _ hcnt
  rw [userUpdate, cidGet_cidUpdate, hlast]

theorem user_alias_id (d : CID) (rec : PyDict)
    (hnd : (keysLower rec).Nodup) :
    cidGet (userUpdate d rec) "id" = some (idVal rec) := by
  have hcnt : (keysLower (dSet rec "username" (usernameVal rec))).count
      (lowerStr "id") ≤ 1 := by
    rw [count_keysLower_dSet_ne _ _ _ _ (by decide)]
    exact List.nodup_iff_count_le_one.mp hnd _
  have hlast : findLast (userMerge rec) (lowerStr "id") = some (idVal rec) := by
    rw [userMerge_eq]
    exact findLast_dSet_self _ "id" _ hcnt
  rw [userUpdate, cidGet_cidUpdate, hlast]

theorem asset_frame (d : CID) (rec : PyDict) (k : String)
    (hmem : lowerStr k ∉ keysLower rec)
    (hp : lowerStr k ≠ "price") (hi : lowerStr k ≠ "id")
    (hn : lowerStr k ≠ "name") :
    cidGet (assetUpdate d rec) k = cidGet d k := by
  have hnone : findLast (assetMerge rec) (lowerStr k) = none := by
    rw [assetMerge,
      findLast_dSetdefault_ne _ _ _ _ (by rw [show lowerStr "name" = "name" by decide]; exact hn),
      findLast_dSetdefault_ne _ _ _ _ (by rw [show lowerStr "id" = "id" by decide]; exact hi),
      findLast_dSetdefault_ne _ _ _ _ (by rw [show lowerStr "price" = "price" by decide]; exact hp),
      findLast_eq_none_iff]
    exact fun hin => hmem (keysLower_lowerPass_sub rec _ hin)
  rw [assetUpdate, cidGet_cidUpdate, hnone]

theorem asset_writes (d : CID) (rec : PyDict) (k : String) (v : JVal)
    (hnd : (keysLower rec).Nodup) (hm : (k, v) ∈ rec)
    (hp : lowerStr k ≠ "price") (hi : lowerStr k ≠ "id")
    (hn : lowerStr k ≠ "name") :
    cidGet (assetUpdate d rec) k = some v := by
  have hlast : findLast (assetMerge rec) (lowerStr k) = some v := by
    rw [assetMerge,
      findLast_dSetdefault_ne _ _ _ _ (by rw [show lowerStr "name" = "name" by decide]; exact hn),
      findLast_dSetdefault_ne _ _ _ _ (by rw [show lowerStr "id" = "id" by decide]; exact hi),
      findLast_dSetdefault_ne _ _ _ _ (by rw [show lowerStr "price" = "price" by decide]; exact hp)]
    exact findLast_lowerPass_of_unique rec k v hnd hm
  rw [assetUpdate, cidGet_cidUpdate, hlast]

theorem universe_frame (d : CID) (rec : PyDict) (k : String)
    (hmem : lowerStr k ∉ keysLower rec) :
    cidGet (universeUpdate d rec) k = cidGet d k := by
  have hnone : findLast (lowerPass rec) (lowerStr k) = none := by
    rw [findLast_eq_none_iff]
    exact fun hin => hmem (keysLower_lowerPass_sub rec _ hin)
  rw [universeUpdate, cidGet_cidUpdate, hnone]

theorem universe_writes (d : CID) (rec : PyDict) (k : String) (v : JVal)
    (hnd : (keysLower rec).Nodup) (hm : (k, v) ∈ rec) :
    cidGet (universeUpdate d rec) k = some v := by
  rw [universeUpdate, cidGet_cidUpdate,
    findLast_lowerPass_of_unique rec k v hnd hm]

theorem cidGet_cidUpdate_isSome (d : CID) (es : PyDict) (k : String)
    (h : (dGet es (lowerStr k)).isSome) :
    (cidGet (cidUpdate d es) k).isSome := by
  cases hv : dGet es (lowerStr k) with
  | none => rw [hv] at h; exact absurd h (by simp)
  | some v =>
    have hmem : (lowerStr k, v) ∈ es := mem_of_dGet _ _ _ hv
    have hkeys : lowerStr k ∈ keysLower es := by
      have hmm : lowerStr (lowerStr k) ∈ keysLower es :=
        List.mem_map.mpr ⟨(lowerStr k, v), hmem, rfl⟩
      rwa [lowerStr_idem] at hmm
    rw [cidGet_cidUpdate]
    cases hf : findLast es (lowerStr k) with
    | none => exact absurd ((findLast_eq_none_iff _ _).mp hf) (by simp [hkeys])
    | some w => rfl

theorem asset_alias_written (d : CID) (rec : PyDict) :
    (cidGet (assetUpdate d rec) "price").isSome ∧
    (cidGet (assetUpdate d rec) "id").isSome ∧
    (cidGet (assetUpdate d rec) "name").isSome := by
  refine ⟨?_, ?_, ?_⟩
  · apply cidGet_cidUpdate_isSome
    rw [assetMerge, show lowerStr "price" = "price" by decide,
      dGet_dSetdefault_ne _ _ _ _ (by decide),
      dGet_dSetdefault_ne _ _ _ _ (by decide)]
    exact dGet_dSetdefault_isSome _ _ _
  · apply cidGet_cidUpdate_isSome
    rw [assetMerge, show lowerStr "id" = "id" by decide,
      dGet_dSetdefault_ne _ _ _ _ (by decide)]
    exact dGet_dSetdefault_isSome _ _ _
  · apply cidGet_cidUpdate_isSome
    rw [assetMerge, show lowerStr "name" = "name" by decide]
    exact dGet_dSetdefault_isSome _ _ _

theorem flattenGo_none {α : Type} (items : List α) (i : Nat) :
    flattenGo items i none = items := by
  induction items generalizing i with
  | nil => rfl
  | cons x xs ih => simp [flattenGo, ih]

theorem flattenGo_zero {α : Type} (items : List α) (i : Nat) :
    flattenGo items i (some 0) = items := by
  induction items generalizing i with
  | nil => rfl
  | cons x xs ih => simp [flattenGo, ih]

theorem flattenGo_take {α : Type} (items : List α) (i n : Nat) (h : i < n) :
    flattenGo items i (some n) = items.take (n - i) := by
  induction items generalizing i with
  | nil => simp [flattenGo]
  | cons x xs ih =>
    by_cases he : n = i + 1
    · have ht : n - i = 1 := by omega
      simp [flattenGo, he, ht]
    · have hlt : i + 1 < n := by omega
      have ht : n - i = (n - (i + 1)) + 1 := by omega
      simp [flattenGo, he, ht, ih (i + 1) hlt]

/-- C9: `GroupMember`'s `>=` and `<=` are strict: on equal ranks (a member
compared with itself included) both return `False`, and `>=` coincides with
`>`; `Role`'s `>=` and `<=` return `True` on equal ranks. -/
theorem c9_groupmember_strict_compare :
    (∀ x y : CID, gm_comp x y = some 0 →
        gm_ge x y = some false ∧ gm_le x y = some false ∧
        gm_gt x y = some false) ∧
    (∀ x y : CID, gm_ge x y = gm_gt x y) ∧
    (∀ x : CID, ∀ r : Int, gmRank x = .int r → gm_comp x x = some 0) ∧
    (∀ x y : CID, role_comp x y = some 0 →
        role_ge x y = some true ∧ role_le x y = some true) := by
  refine ⟨?_, ?_, ?_, ?_⟩
  · intro x y h
    refine ⟨?_, ?_, ?_⟩ <;> simp [gm_ge, gm_le, gm_gt, h]
  · intro x y
    unfold gm_ge gm_gt gm_comp
    rcases hx : gmRank x with _ | b0 | a | s0 | l0 | o0 <;>
      (rcases hy : gmRank y with _ | b1 | b | s1 | l1 | o1) <;> try rfl
    by_cases h1 : a > b
    · simp [h1]
    · by_cases h2 : a = b
      · simp [h1, h2]
      · simp [h1, h2]
  · intro x r hr
    unfold gm_comp
    rw [hr]
    simp
  · intro x y h
    constructor <;> simp [role_ge, role_le, h]

/-- C9 witness: two members of equal rank 5: `>=`, `<=` both `False`; two
roles of equal rank 3: `>=`, `<=` both `True`. -/
theorem c9_groupmember_strict_compare_witness :
    gm_ge [("role", JVal.obj [("rank", JVal.int 5)])]
        [("role", JVal.obj [("rank", JVal.int 5)])] = some false ∧
    gm_le [("role", JVal.obj [("rank", JVal.int 5)])]
        [("role", JVal.obj [("rank", JVal.int 5)])] = some false ∧
    role_ge [("rank", JVal.int 3)] [("rank", JVal.int 3)] = some true ∧
    role_le [("rank", JVal.int 3)] [("rank", JVal.int 3)] = some true := by
  have h1 := (c9_groupmember_strict_compare.1
    [("role", JVal.obj [("rank", JVal.int 5)])]
    [("role", JVal.obj [("rank", JVal.int 5)])] (by rfl))
  have h2 := (c9_groupmember_strict_compare.2.2.2
    [("rank", JVal.int 3)] [("rank", JVal.int 3)] (by rfl))
  exact ⟨h1.1, h1.2.1, h2.1, h2.2⟩

/-- C10: `flatten(limit=n)` with `n ≥ 1` returns the first `min(n, length)`
items in yield order; `limit=None` and `limit=0` return the complete list
(the `limit=0` call does not return an empty list). -/
theorem c10_flatten_limits :
    (∀ (α : Type) (items : List α) (n : Nat), 1 ≤ n →
        flatten items (some n) = items.take n) ∧
    (∀ (α : Type) (items : List α), flatten items none = items) ∧
    (∀ (α : Type) (items : List α), flatten items (some 0) = items) := by
  refine ⟨?_, ?_, ?_⟩
  · intro α items n h
    rw [flatten, flattenGo_take items 0 n (by omega), Nat.sub_zero]
  · intro α items
    exact flattenGo_none items 0
  · intro α items
    exact flattenGo_zero items 0

/-- C10 witness: a three-item stream with `limit=2`, `limit=None` and
`limit=0`. -/
theorem c10_flatten_limits_witness :
    flatten [10, 20, 30] (some 2) = [10, 20] ∧
    flatten [10, 20, 30] (none : Option Nat) = [10, 20, 30] ∧
    flatten [10, 20, 30] (some 0) = [10, 20, 30] :=
  ⟨c10_flatten_limits.1 Nat [10, 20, 30] 2 (by decide),
   c10_flatten_limits.2.1 Nat [10, 20, 30],
   c10_flatten_limits.2.2 Nat [10, 20, 30]⟩

/-- C3: the claim that every Session error maps into the `RobloxException`
hierarchy is right as the spec's intent, but `Session.edit_permissions`
raises Python's builtin `PermissionError` (an `OSError` outside the
hierarchy) on any non-OK response, while the sibling methods shown for
contrast all raise library classes. -/
theorem c3_edit_permissions_outside_hierarchy :
    edit_permissions ⟨403, []⟩ = .error .permissionErrorBuiltin ∧
    inRobloxHierarchy .permissionErrorBuiltin = false ∧
    ExcClass.isSubclassOf .permissionErrorBuiltin .osError = true ∧
    get_user_data ⟨403, []⟩ = .error .userIdentificationError ∧
    ([ExcClass.rateLimit, .authError, .captcha, .userError,
      .friendLimitExceeded, .userIdentificationError, .assetError,
      .assetNotFound, .purchaseError, .priceChanged, .gameNotFound,
      .groupError, .groupNotFound, .userNotInGroup, .roleError,
      .roleNotFound, .roleEditError].all inRobloxHierarchy) = true :=
  ⟨rfl, by decide, by decide, rfl, by decide⟩

/-- C5: `Session.get_by_username` returns the dict with the response's `Id`
field on a 2xx status and raises `UserIdentificationError` on every status
outside 200..299. -/
theorem c5_get_by_username :
    (∀ (s : Int) (body : PyDict) (idv : JVal),
        200 ≤ s → s < 300 → dGet body "Id" = some idv →
        get_by_username ⟨s, body⟩ = .ok [("id", idv)]) ∧
    (∀ (s : Int) (body : PyDict), ¬(200 ≤ s ∧ s < 300) →
        get_by_username ⟨s, body⟩ = .error .userIdentificationError) := by
  constructor
  · intro s body idv h1 h2 h3
    have hok : ok s = true := by
      simp [ok]
      omega
    simp [get_by_username, hok, h3]
  · intro s body h
    have hok : ok s = false := by
      simp [ok]
      omega
    simp [get_by_username, hok]

/-- C5 witness: a 200 response with `Id = 7` yields `{id: 7}`; a 404
response raises `UserIdentificationError`. -/
theorem c5_get_by_username_witness :
    get_by_username ⟨200, [("Id", JVal.int 7)]⟩ = .ok [("id", JVal.int 7)] ∧
    get_by_username ⟨404, []⟩ = .error .userIdentificationError :=
  ⟨c5_get_by_username.1 200 [("Id", JVal.int 7)] (JVal.int 7)
     (by decide) (by decide) rfl,
   c5_get_by_username.2 404 [] (by omega)⟩

/-- C6: `Session.purchase_product` returns the response data when
`purchased` is true; otherwise it raises `PriceChanged` exactly when the
`reason` field equals `"PriceChanged"` and `PurchaseError` for every other
reason (`"InvalidArguments"` and a missing reason included); `PriceChanged`
subclasses `PurchaseError`, which subclasses `AssetError`. -/
theorem c6_purchase_product :
    (∀ (r : Resp) (pv : JVal), dGet r.body "purchased" = some pv →
        pv.truthy = true → purchase_product r = .ok r.body) ∧
    (∀ (r : Resp) (pv : JVal), dGet r.body "purchased" = some pv →
        pv.truthy = false →
        ((dGetD r.body "reason" .null).strEq "PriceChanged" = true →
            purchase_product r = .error .priceChanged) ∧
        ((dGetD r.body "reason" .null).strEq "PriceChanged" = false →
            purchase_product r = .error .purchaseError)) ∧
    ExcClass.isSubclassOf .priceChanged .purchaseError = true ∧
    ExcClass.isSubclassOf .purchaseError .assetError = true := by
  refine ⟨?_, ?_, by decide, by decide⟩
  · intro r pv hp ht
    simp [purchase_product, hp, ht]
  · intro r pv hp ht
    constructor
    · intro hr
      have hia : (dGetD r.body "reason" .null).strEq "InvalidArguments" =
          false := by
        cases hv : dGetD r.body "reason" .null <;> simp [JVal.strEq] at hr ⊢
        rw [hv] at hr
        simp [JVal.strEq] at hr
        simp [hr]
      simp [purchase_product, hp, ht, hia, hr]
    · intro hr
      by_cases hia : (dGetD r.body "reason" .null).strEq "InvalidArguments" =
          true
      · simp [purchase_product, hp, ht, hia]
      · simp [purchase_product, hp, ht,
          Bool.eq_false_iff.mpr hia, hr]

/-- C6 witness: a purchased response returns its body; reason
`"PriceChanged"` raises `PriceChanged`; reason `"InvalidArguments"` and a
missing reason raise `PurchaseError`. -/
theorem c6_purchase_product_witness :
    purchase_product ⟨200, [("purchased", JVal.bool true)]⟩ =
      .ok [("purchased", JVal.bool true)] ∧
    purchase_product ⟨200, [("purchased", JVal.bool false),
        ("reason", JVal.str "PriceChanged")]⟩ = .error .priceChanged ∧
    purchase_product ⟨200, [("purchased", JVal.bool false),
        ("reason", JVal.str "InvalidArguments")]⟩ = .error .purchaseError ∧
    purchase_product ⟨200, [("purchased", JVal.bool false)]⟩ =
      .error .purchaseError :=
  ⟨c6_purchase_product.1 ⟨200, [("purchased", JVal.bool true)]⟩
     (JVal.bool true) rfl rfl,
   (c6_purchase_product.2.1 ⟨200, [("purchased", JVal.bool false),
       ("reason", JVal.str "PriceChanged")]⟩ (JVal.bool false) rfl rfl).1
     (by decide),
   (c6_purchase_product.2.1 ⟨200, [("purchased", JVal.bool false),
       ("reason", JVal.str "InvalidArguments")]⟩ (JVal.bool false) rfl rfl).2
     (by decide),
   (c6_purchase_product.2.1 ⟨200, [("purchased", JVal.bool false)]⟩
       (JVal.bool false) rfl rfl).2 (by decide)⟩

theorem runP_prog_error {α : Type} (p : HttpProg α) (url : String)
    (h : Resp → Except ExcClass α)
    (hp : p = .req url (fun r => .ofExcept (h r)))
    (oracle : Nat → Resp) (n : Nat) (e : ExcClass)
    (he : h (oracle n) = .error e) :
    (runP p oracle n).1.length = 1 ∧ (runP p oracle n).2 = .error e := by
  subst hp
  constructor <;> simp [runP, he, HttpProg.ofExcept]

/-- C7: once a response fails, a Session method issues no further request:
each embedded method's run on a failing first response issues exactly one
request and propagates the error; a `gen_pages` pagination loop whose page
body carries no `nextPageCursor` (as error bodies do not) stops after that
single request. -/
theorem c7_no_retry_single_attempt :
    (∀ (oracle : Nat → Resp) (uid : Int), ok (oracle 0).status = false →
        (runP (get_user_data_prog uid) oracle 0).1.length = 1 ∧
        (runP (get_user_data_prog uid) oracle 0).2 =
          .error .userIdentificationError) ∧
    (∀ (oracle : Nat → Resp) (u : String), ok (oracle 0).status = false →
        (runP (get_by_username_prog u) oracle 0).1.length = 1 ∧
        (runP (get_by_username_prog u) oracle 0).2 =
          .error .userIdentificationError) ∧
    (∀ (oracle : Nat → Resp) (uid : Int), ok (oracle 0).status = false →
        (runP (user_status_prog uid) oracle 0).1.length = 1 ∧
        (runP (user_status_prog uid) oracle 0).2 =
          .error .userIdentificationError) ∧
    (∀ (oracle : Nat → Resp) (aid : Int), ok (oracle 0).status = false →
        (runP (product_info_prog aid) oracle 0).1.length = 1 ∧
        (runP (product_info_prog aid) oracle 0).2 =
          .error .assetNotFound) ∧
    (∀ (oracle : Nat → Resp) (uid : Int), ok (oracle 0).status = false →
        (runP (get_currency_prog uid) oracle 0).1.length = 1 ∧
        (runP (get_currency_prog uid) oracle 0).2 = .error .authError) ∧
    (∀ (oracle : Nat → Resp) (gid : Int), ok (oracle 0).status = false →
        (runP (get_group_details_prog gid) oracle 0).1.length = 1 ∧
        (runP (get_group_details_prog gid) oracle 0).2 =
          .error .groupNotFound) ∧
    (∀ (oracle : Nat → Resp) (gid rid : Int), ok (oracle 0).status = false →
        (runP (edit_permissions_prog gid rid) oracle 0).1.length = 1 ∧
        (runP (edit_permissions_prog gid rid) oracle 0).2 =
          .error .permissionErrorBuiltin) ∧
    (∀ (oracle : Nat → Resp) (pid : Int) (pv : JVal),
        dGet (oracle 0).body "purchased" = some pv → pv.truthy = false →
        (runP (purchase_product_prog pid) oracle 0).1.length = 1 ∧
        ∃ e, (runP (purchase_product_prog pid) oracle 0).2 = .error e) ∧
    (∀ (oracle : Nat → Resp) (url : String) (fuel : Nat),
        (dGetD (oracle 0).body "nextPageCursor" .null).isNull = true →
        (runP (gen_pages_prog url (fuel + 1) []) oracle 0).1.length = 1) := by
  refine ⟨?_, ?_, ?_, ?_, ?_, ?_, ?_, ?_, ?_⟩
  · intro oracle uid h
    exact runP_prog_error _ _ get_user_data rfl oracle 0 _
      (by simp [get_user_data, h])
  · intro oracle u h
    exact runP_prog_error _ _ get_by_username rfl oracle 0 _
      (by simp [get_by_username, h])
  · intro oracle uid h
    exact runP_prog_error _ _ user_status rfl oracle 0 _
      (by simp [user_status, h])
  · intro oracle aid h
    exact runP_prog_error _ _ product_info rfl oracle 0 _
      (by simp [product_info, h])
  · intro oracle uid h
    exact runP_prog_error _ _ get_currency rfl oracle 0 _
      (by simp [get_currency, h])
  · intro oracle gid h
    exact runP_prog_error _ _ get_group_details rfl oracle 0 _
      (by simp [get_group_details, h])
  · intro oracle gid rid h
    exact runP_prog_error _ _ edit_permissions rfl oracle 0 _
      (by simp [edit_permissions, h])
  · intro oracle pid pv hp ht
    have hex : ∃ e, purchase_product (oracle 0) = .error e := by
      unfold purchase_product
      rw [hp]
      by_cases hr : (dGetD (oracle 0).body "reason" .null).strEq
          "InvalidArguments" = true
      · exact ⟨.purchaseError, by simp [ht, hr]⟩
      · by_cases hr2 : (dGetD (oracle 0).body "reason" .null).strEq
            "PriceChanged" = true
        · exact ⟨.priceChanged, by simp [ht, hr, hr2]⟩
        · exact ⟨.purchaseError, by simp [ht, hr, hr2]⟩
    obtain ⟨e, he⟩ := hex
    have hrun := runP_prog_error (purchase_product_prog pid)
      ("https://economy.roblox.com/v1/purchases/products/" ++ toString pid)
      purchase_product rfl oracle 0 e he
    exact ⟨hrun.1, e, hrun.2⟩
  · intro oracle url fuel h
    simp [runP, gen_pages_prog, pageItems, h]

/-- C7 witness: a 404 response to the user-data request: one request
issued, `UserIdentificationError` propagated; a cursorless page stops the
pagination after one request. -/
theorem c7_no_retry_single_attempt_witness :
    (runP (get_user_data_prog 3) (fun _ => ⟨404, []⟩) 0).1.length = 1 ∧
    (runP (get_user_data_prog 3) (fun _ => ⟨404, []⟩) 0).2 =
      .error .userIdentificationError ∧
    (runP (gen_pages_prog "u" 5 []) (fun _ => ⟨500, []⟩) 0).1.length = 1 :=
  ⟨(c7_no_retry_single_attempt.1 (fun _ => ⟨404, []⟩) 3 rfl).1,
   (c7_no_retry_single_attempt.1 (fun _ => ⟨404, []⟩) 3 rfl).2,
   c7_no_retry_single_attempt.2.2.2.2.2.2.2.2 (fun _ => ⟨500, []⟩) "u" 4 rfl⟩

/-- C1 counterexample: an asset whose `_data` already holds `price = 5`
still performs one fetch on a `price` access (the decorator is
`p_info("price", nocache=True)`), and the access returns the refetched
value, not the cache (here `None` from an empty product-info response). -/
theorem c1_lazy_counterexample :
    (cidGetD [("price", JVal.int 5)] "price" JVal.null).isNull = false ∧
    (asset_price [("price", JVal.int 5)] []).1 = 1 ∧
    (asset_price [("price", JVal.int 5)] []).2.2 = JVal.null :=
  ⟨rfl, rfl, rfl⟩

/-- C1 (amended): the cache-checking lazy properties (`User.username`,
`User.description`, `Asset.name`, `Asset.description`, `Group.name`,
`Universe.name`) fetch exactly once and return the merged field when the
cached field is `None`, and return the cached value with no fetch when it
is present; `Asset.price` and `Asset.sales` (declared `nocache=True`)
perform exactly one fetch on every access. -/
theorem c1_lazy_properties :
    (∀ (d : CID) (resp : PyDict),
        (cidGetD d "username" .null).isNull = false →
        user_username d resp =
          (0, d, pyOr (cidGetD d "username" .null)
            (cidGetD d "name" .null))) ∧
    (∀ (d : CID) (resp : PyDict),
        (cidGetD d "username" .null).isNull = true →
        user_username d resp =
          (1, userUpdate d resp,
            pyOr (cidGetD (userUpdate d resp) "username" .null)
              (cidGetD (userUpdate d resp) "name" .null))) ∧
    (∀ (d : CID) (resp : PyDict),
        (cidGetD d "description" .null).isNull = false →
        user_description d resp = (0, d, cidGetD d "description" .null)) ∧
    (∀ (d : CID) (resp : PyDict),
        (cidGetD d "description" .null).isNull = true →
        user_description d resp =
          (1, userUpdate d resp,
            cidGetD (userUpdate d resp) "description" .null)) ∧
    (∀ (d : CID) (resp : PyDict),
        (cidGetD d "name" .null).isNull = false →
        asset_name d resp = (0, d, cidGetD d "name" .null)) ∧
    (∀ (d : CID) (resp : PyDict),
        (cidGetD d "name" .null).isNull = true →
        asset_name d resp =
          (1, assetUpdate d resp, cidGetD (assetUpdate d resp) "name" .null)) ∧
    (∀ (d : CID) (resp : PyDict),
        (cidGetD d "description" .null).isNull = false →
        asset_description d resp = (0, d, cidGetD d "description" .null)) ∧
    (∀ (d : CID) (resp : PyDict),
        (cidGetD d "description" .null).isNull = true →
        asset_description d resp =
          (1, assetUpdate d resp,
            cidGetD (assetUpdate d resp) "description" .null)) ∧
    (∀ (d : CID) (resp : PyDict),
        (cidGetD d "name" .null).isNull = false →
        group_name d resp = (0, d, cidGetD d "name" .null)) ∧
    (∀ (d : CID) (resp : PyDict),
        (cidGetD d "name" .null).isNull = true →
        group_name d resp =
          (1, groupUpdate d resp, cidGetD (groupUpdate d resp) "name" .null)) ∧
    (∀ (d : CID) (resp : PyDict),
        (cidGetD d "name" .null).isNull = false →
        universe_name d resp = (0, d, cidGetD d "name" .null)) ∧
    (∀ (d : CID) (resp : PyDict),
        (cidGetD d "name" .null).isNull = true →
        universe_name d resp =
          (1, universeUpdate d resp,
            cidGetD (universeUpdate d resp) "name" .null)) ∧
    (∀ (d : CID) (resp : PyDict),
        asset_price d resp =
          (1, assetUpdate d resp,
            cidGetD (assetUpdate d resp) "price" .null)) ∧
    (∀ (d : CID) (resp : PyDict),
        asset_sales d resp =
          (1, assetUpdate d resp,
            cidGetD (assetUpdate d resp) "sales" .null)) := by
  refine ⟨?_, ?_, ?_, ?_, ?_, ?_, ?_, ?_, ?_, ?_, ?_, ?_, ?_, ?_⟩ <;>
    intro d resp <;>
    first
      | (intro h
         first
           | simp [user_username, h]
           | simp [user_description, h]
           | simp [asset_name, asset_description, group_name, universe_name,
               p_info, h])
      | simp [asset_price, asset_sales, p_info]

/-- C1 witness: a user with a cached username: no fetch, cached value
returned; a user with username `None`: one fetch, merged value returned;
an asset with `price` present: the `price` access still fetches once. -/
theorem c1_lazy_properties_witness :
    user_username [("username", JVal.str "bob")] [] =
      (0, [("username", JVal.str "bob")], JVal.str "bob") ∧
    user_username [("username", JVal.null)] [("name", JVal.str "alice")] =
      (1, userUpdate [("username", JVal.null)] [("name", JVal.str "alice")],
        JVal.str "alice") ∧
    asset_price [("price", JVal.int 5)] [("PriceInRobux", JVal.int 12)] =
      (1, assetUpdate [("price", JVal.int 5)] [("PriceInRobux", JVal.int 12)],
        JVal.int 12) :=
  ⟨c1_lazy_properties.1 [("username", JVal.str "bob")] [] rfl,
   c1_lazy_properties.2.1 [("username", JVal.null)]
     [("name", JVal.str "alice")] rfl,
   c1_lazy_properties.2.2.2.2.2.2.2.2.2.2.2.2.1
     [("price", JVal.int 5)] [("PriceInRobux", JVal.int 12)]⟩

/-- C2: `BaseUser.__init__` raises `UserIdentificationError` exactly when,
after the initial merge, both `username` and `id` are `None`; a
successfully constructed user has `username` or `id` present; and
`Roblox.get_user` raises `UserIdentificationError` exactly when both the
`id` and `username` arguments are unset. -/
theorem c2_user_identification_invariant :
    (∀ data : PyDict,
        userInit data = .error .userIdentificationError ↔
          ((cidGetD (userUpdate userData0 data) "username" .null).isNull =
              true ∧
           (cidGetD (userUpdate userData0 data) "id" .null).isNull = true)) ∧
    (∀ (data : PyDict) (d : CID), userInit data = .ok d →
        ((cidGetD d "username" .null).isNull = false ∨
         (cidGetD d "id" .null).isNull = false)) ∧
    (∀ (oid : Option Int) (oname : Option String),
        get_user oid oname = .error .userIdentificationError ↔
          (oid = none ∧ oname = none)) := by
  refine ⟨?_, ?_, ?_⟩
  · intro data
    by_cases hc : ((cidGetD (userUpdate userData0 data) "username"
          .null).isNull &&
        (cidGetD (userUpdate userData0 data) "id" .null).isNull) = true
    · rcases Bool.and_eq_true_iff.mp hc with ⟨h1, h2⟩
      simp [userInit, hc, h1, h2]
    · rw [userInit]
      rw [if_neg (by simpa using hc)]
      constructor
      · intro h
        exact Except.noConfusion h
      · rintro ⟨h1, h2⟩
        exact absurd (by rw [h1, h2]; rfl) hc
  · intro data d h
    by_cases hc : ((cidGetD (userUpdate userData0 data) "username"
          .null).isNull &&
        (cidGetD (userUpdate userData0 data) "id" .null).isNull) = true
    · rw [userInit, if_pos (by simpa using hc)] at h
      exact Except.noConfusion h
    · rw [userInit, if_neg (by simpa using hc)] at h
      have hd : userUpdate userData0 data = d := Except.ok.inj h
      rw [← hd]
      cases hu : (cidGetD (userUpdate userData0 data) "username"
          .null).isNull with
      | false => exact Or.inl rfl
      | true =>
        cases hi : (cidGetD (userUpdate userData0 data) "id" .null).isNull with
        | false => exact Or.inr rfl
        | true => exact absurd (by rw [hu, hi]; rfl) hc
  · intro oid oname
    cases oid with
    | none =>
      cases oname with
      | none => simp [get_user]
      | some s =>
        have hr : get_user none (some s) = .ok (userUpdate userData0
            [("username", JVal.str s), ("id", JVal.null)]) := rfl
        rw [hr]
        constructor
        · intro h
          exact Except.noConfusion h
        · rintro ⟨h1, h2⟩
          exact Option.noConfusion h2
    | some n =>
      cases oname with
      | none =>
        have hr : get_user (some n) none = .ok (userUpdate userData0
            [("username", JVal.null), ("id", JVal.int n)]) := rfl
        rw [hr]
        constructor
        · intro h
          exact Except.noConfusion h
        · rintro ⟨h1, h2⟩
          exact Option.noConfusion h1
      | some s =>
        have hr : get_user (some n) (some s) = .ok (userUpdate userData0
            [("username", JVal.str s), ("id", JVal.int n)]) := rfl
        rw [hr]
        constructor
        · intro h
          exact Except.noConfusion h
        · rintro ⟨h1, h2⟩
          exact Option.noConfusion h1

/-- C2 witness: a user built from `{id: 3}` satisfies the invariant
(its `id` is present), and `get_user` with neither argument raises
`UserIdentificationError`. -/
theorem c2_user_identification_invariant_witness :
    ((cidGetD (userUpdate userData0 [("id", JVal.int 3)]) "username"
        .null).isNull = false ∨
     (cidGetD (userUpdate userData0 [("id", JVal.int 3)]) "id"
        .null).isNull = false) ∧
    get_user none none = .error .userIdentificationError :=
  ⟨c2_user_identification_invariant.2.1 [("id", JVal.int 3)] _ rfl,
   (c2_user_identification_invariant.2.2 none none).mpr ⟨rfl, rfl⟩⟩

/-- C4: `_update` overwrites in `_data` exactly the (case-insensitive) keys
present in the fetched record plus the derived alias keys (`username`/`id`
for users — set to the derived chain values; `price`/`id`/`name` for
assets — always written), and leaves every other key of `_data` unchanged;
`Universe._update` writes exactly the record's keys. -/
theorem c4_update_frame_effect :
    (∀ (d : CID) (rec : PyDict) (k : String),
        lowerStr k ∉ keysLower rec → lowerStr k ≠ "username" →
        lowerStr k ≠ "id" → cidGet (userUpdate d rec) k = cidGet d k) ∧
    (∀ (d : CID) (rec : PyDict) (k : String) (v : JVal),
        (keysLower rec).Nodup → (k, v) ∈ rec → lowerStr k ≠ "username" →
        lowerStr k ≠ "id" → cidGet (userUpdate d rec) k = some v) ∧
    (∀ (d : CID) (rec : PyDict), (keysLower rec).Nodup →
        cidGet (userUpdate d rec) "username" = some (usernameVal rec) ∧
        cidGet (userUpdate d rec) "id" = some (idVal rec)) ∧
    (∀ (d : CID) (rec : PyDict) (k : String),
        lowerStr k ∉ keysLower rec → lowerStr k ≠ "price" →
        lowerStr k ≠ "id" → lowerStr k ≠ "name" →
        cidGet (assetUpdate d rec) k = cidGet d k) ∧
    (∀ (d : CID) (rec : PyDict) (k : String) (v : JVal),
        (keysLower rec).Nodup → (k, v) ∈ rec → lowerStr k ≠ "price" →
        lowerStr k ≠ "id" → lowerStr k ≠ "name" →
        cidGet (assetUpdate d rec) k = some v) ∧
    (∀ (d : CID) (rec : PyDict),
        (cidGet (assetUpdate d rec) "price").isSome ∧
        (cidGet (assetUpdate d rec) "id").isSome ∧
        (cidGet (assetUpdate d rec) "name").isSome) ∧
    (∀ (d : CID) (rec : PyDict) (k : String),
        lowerStr k ∉ keysLower rec →
        cidGet (universeUpdate d rec) k = cidGet d k) ∧
    (∀ (d : CID) (rec : PyDict) (k : String) (v : JVal),
        (keysLower rec).Nodup → (k, v) ∈ rec →
        cidGet (universeUpdate d rec) k = some v) :=
  ⟨user_frame, user_writes,
   fun d rec hnd => ⟨user_alias_username d rec hnd, user_alias_id d rec hnd⟩,
   asset_frame, asset_writes, asset_alias_written,
   universe_frame, universe_writes⟩

/-- C4 witness: merging `{Name: "X", status: "on"}` into a user `_data`
leaves `description` untouched, writes the `status` key's value, and sets
the `username` alias to the derived `Name` value. -/
theorem c4_update_frame_effect_witness :
    cidGet (userUpdate [("description", JVal.str "old")]
        [("Name", JVal.str "X"), ("status", JVal.str "on")]) "description" =
      cidGet [("description", JVal.str "old")] "description" ∧
    cidGet (userUpdate [("description", JVal.str "old")]
        [("Name", JVal.str "X"), ("status", JVal.str "on")]) "status" =
      some (JVal.str "on") ∧
    cidGet (userUpdate [("description", JVal.str "old")]
        [("Name", JVal.str "X"), ("status", JVal.str "on")]) "username" =
      some (usernameVal [("Name", JVal.str "X"), ("status", JVal.str "on")]) ∧
    (cidGet (assetUpdate [] [("Sales", JVal.int 9)]) "price").isSome :=
  ⟨c4_update_frame_effect.1 [("description", JVal.str "old")]
     [("Name", JVal.str "X"), ("status", JVal.str "on")] "description"
     (by decide) (by decide) (by decide),
   c4_update_frame_effect.2.1 [("description", JVal.str "old")]
     [("Name", JVal.str "X"), ("status", JVal.str "on")] "status"
     (JVal.str "on") (by decide)
     (List.mem_cons_of_mem _ (List.mem_cons_self _ _))
     (by decide) (by decide),
   (c4_update_frame_effect.2.2.1 [("description", JVal.str "old")]
     [("Name", JVal.str "X"), ("status", JVal.str "on")] (by decide)).1,
   (c4_update_frame_effect.2.2.2.2.2.1 [] [("Sales", JVal.int 9)]).1⟩

/-- C8: `BaseUser.__eq__` returns `True` iff the two users have the same
non-`None` id, or — when the ids are not both equal-and-non-`None` — both
usernames are non-`None` and equal case-insensitively; two users with
distinct non-`None` ids but one username compare equal, and the relation
is symmetric (fields shaped as the code stores them: int-or-`None` ids,
str-or-`None` usernames). -/
theorem c8_user_equality :
    (∀ x y : CID,
        isIntOrNull (cidGetD x "id" .null) = true →
        isIntOrNull (cidGetD y "id" .null) = true →
        isStrOrNull (cidGetD x "username" .null) = true →
        isStrOrNull (cidGetD y "username" .null) = true →
        (user_eq x y = true ↔
          ((∃ n : Int, cidGetD x "id" .null = .int n ∧
              cidGetD y "id" .null = .int n) ∨
           (¬(pyEqPrim (cidGetD x "id" .null) (cidGetD y "id" .null) = true ∧
               (cidGetD x "id" .null).isNull = false) ∧
            ∃ s t : String, cidGetD x "username" .null = .str s ∧
              cidGetD y "username" .null = .str t ∧
              lowerStr s = lowerStr t)))) ∧
    (∀ x y : CID,
        isIntOrNull (cidGetD x "id" .null) = true →
        isIntOrNull (cidGetD y "id" .null) = true →
        isStrOrNull (cidGetD x "username" .null) = true →
        isStrOrNull (cidGetD y "username" .null) = true →
        user_eq x y = user_eq y x) := by
  constructor
  · intro x y hix hiy hsx hsy
    set a := cidGetD x "id" .null with ha
    set b := cidGetD y "id" .null with hb
    set c := cidGetD x "username" .null with hc
    set dd := cidGetD y "username" .null with hd
    rw [show user_eq x y =
        (if pyEqPrim a b && !a.isNull then true
         else if !c.isNull && !dd.isNull then
           pyEqPrim c.lowerVal dd.lowerVal
         else false) from rfl]
    clear_value a b c dd
    rcases a with _ | ab | na | as0 | aa | ao <;>
      simp [isIntOrNull] at hix <;>
    rcases b with _ | bb | nb | bs0 | ba | bo <;>
      simp [isIntOrNull] at hiy <;>
    rcases c with _ | cb | cn | sc0 | ca | co <;>
      simp [isStrOrNull] at hsx <;>
    rcases dd with _ | db | dn | sd0 | da | dodd <;>
      simp [isStrOrNull] at hsy <;>
    simp [pyEqPrim, JVal.isNull, JVal.lowerVal] <;>
    try (by_cases hn : na = nb <;> simp [hn])
    all_goals exact fun h => absurd h.symm hn
  · intro x y hix hiy hsx hsy
    set a := cidGetD x "id" .null with ha
    set b := cidGetD y "id" .null with hb
    set c := cidGetD x "username" .null with hc
    set dd := cidGetD y "username" .null with hd
    rw [show user_eq x y =
        (if pyEqPrim a b && !a.isNull then true
         else if !c.isNull && !dd.isNull then
           pyEqPrim c.lowerVal dd.lowerVal
         else false) from rfl,
      show user_eq y x =
        (if pyEqPrim b a && !b.isNull then true
         else if !dd.isNull && !c.isNull then
           pyEqPrim dd.lowerVal c.lowerVal
         else false) from rfl]
    clear_value a b c dd
    rcases a with _ | ab | na | as0 | aa | ao <;>
      simp [isIntOrNull] at hix <;>
    rcases b with _ | bb | nb | bs0 | ba | bo <;>
      simp [isIntOrNull] at hiy <;>
    rcases c with _ | cb | cn | sc0 | ca | co <;>
      simp [isStrOrNull] at hsx <;>
    rcases dd with _ | db | dn | sd0 | da | dodd <;>
      simp [isStrOrNull] at hsy <;>
    simp [pyEqPrim, JVal.isNull, JVal.lowerVal]
    all_goals first
      | exact ⟨Eq.symm, Eq.symm⟩
      | (by_cases hn : na = nb
         · simp [hn]
         · have hn2 : ¬nb = na := fun h => hn h.symm
           rw [decide_eq_false hn, decide_eq_false hn2]
           simp only [Bool.false_or]
           exact decide_eq_decide.mpr ⟨Eq.symm, Eq.symm⟩)

/-- C8 witness: two users with distinct non-`None` ids (1 and 2) but the
same username up to case compare equal, and the comparison is symmetric. -/
theorem c8_user_equality_witness :
    user_eq [("id", JVal.int 1), ("username", JVal.str "Bob")]
      [("id", JVal.int 2), ("username", JVal.str "bob")] = true ∧
    user_eq [("id", JVal.int 1), ("username", JVal.str "Bob")]
        [("id", JVal.int 2), ("username", JVal.str "bob")] =
      user_eq [("id", JVal.int 2), ("username", JVal.str "bob")]
        [("id", JVal.int 1), ("username", JVal.str "Bob")] :=
  ⟨(c8_user_equality.1 [("id", JVal.int 1), ("username", JVal.str "Bob")]
      [("id", JVal.int 2), ("username", JVal.str "bob")]
      rfl rfl rfl rfl).mpr
     (Or.inr ⟨by decide, "Bob", "bob", rfl, rfl, by decide⟩),
   c8_user_equality.2 [("id", JVal.int 1), ("username", JVal.str "Bob")]
     [("id", JVal.int 2), ("username", JVal.str "bob")]
     rfl rfl rfl rfl⟩
